import Mathlib

/-!
Verification of the LiteX CSR subsystem specification against the code.

The repository sources present are `build.py` (build driver),
`litex/soc/cores/gpio.py` (GPIO peripherals) and
`litex/boards/targets/arty.py` (Arty target).  The CSR bank allocator,
header emitter and interrupt-map emitter are called from these files but
their implementation is not among the sources, so those components are
modelled from the specification (each such definition says so in its doc
comment).  The GPIO cores and the Arty `main` entry point are embedded
directly from the source.
-/

/-- Access mode of a CSR: `status` is read-only (hardware-driven),
`storage` is read-write (software-driven). -/
inductive CSRKind where
  | status
  | storage
deriving DecidableEq, Repr

/-- A control/status register: name, width in bits, access mode. -/
structure Register where
  name : String
  width : Nat
  kind : CSRKind
deriving DecidableEq, Repr

/-- A bank: a named, ordered sequence of registers. -/
structure Bank where
  name : String
  regs : List Register
deriving DecidableEq, Repr

/-- Ceiling division on naturals. -/
def ceilDiv (a b : Nat) : Nat := (a + b - 1) / b

/-- Total register bits of a bank: the sum of its registers' widths. -/
def Bank.totalBits (b : Bank) : Nat := (b.regs.map Register.width).sum

/-- Allocator configuration: bus width in bits, slot size in bytes,
alignment in bytes. -/
structure AllocCfg where
  busWidth : Nat
  slotSize : Nat
  align : Nat
deriving DecidableEq, Repr

/-- Modelled from the spec: the bank allocator's size computation, which is
not under the sources (only its callers are).  A bank's required
address-space size is `ceil(total_register_bits / bus_width) * slot_size`,
rounded up to the alignment boundary. -/
def bankSize (cfg : AllocCfg) (b : Bank) : Nat :=
  ceilDiv (ceilDiv b.totalBits cfg.busWidth * cfg.slotSize) cfg.align * cfg.align

/-- One entry of the AddressMap: bank name, base address, size in bytes. -/
structure MapEntry where
  name : String
  base : Nat
  size : Nat
deriving DecidableEq, Repr

/-- Modelled from the spec: the allocation loop, which is not under the
sources.  Banks are visited in registration order; each is assigned the
next available address and the running cursor advances by its size. -/
def allocBanks (cfg : AllocCfg) : List Bank → Nat → List MapEntry
  | [], _ => []
  | b :: bs, cursor =>
    { name := b.name, base := cursor, size := bankSize cfg b } ::
      allocBanks cfg bs (cursor + bankSize cfg b)

/-- The configuration error raised for a bank with no registers; it names
the offending bank. -/
def emptyBankError (n : String) : String :=
  "configuration error: bank " ++ n ++ " has no registers"

/-- The configuration error raised for a duplicate bank name. -/
def dupBankError (n : String) : String :=
  "configuration error: duplicate bank name " ++ n

/-- First bank name that also occurs later in the list, if any. -/
def findDup : List Bank → Option String
  | [] => none
  | b :: bs => if bs.any (fun c => c.name == b.name) then some b.name else findDup bs

/-- Modelled from the spec: allocation entry point, not under the sources.
It rejects a bank with zero registers and a duplicate bank name with a
descriptive error, and otherwise produces the AddressMap by iterating
banks in registration order from cursor 0. -/
def allocate (cfg : AllocCfg) (banks : List Bank) : Except String (List MapEntry) :=
  match banks.find? (fun b => b.regs.isEmpty) with
  | some b => Except.error (emptyBankError b.name)
  | none =>
    match findDup banks with
    | some n => Except.error (dupBankError n)
    | none => Except.ok (allocBanks cfg banks 0)

/-- Modelled from the spec: the header lines for one bank's registers, not
under the sources.  Every register gets a fully-qualified symbolic name and
its computed absolute address; the per-register offset advances by the
register's slot count. -/
def regLines (cfg : AllocCfg) (bankName : String) (base : Nat) :
    List Register → Nat → List String
  | [], _ => []
  | r :: rs, off =>
    ("#define CSR_" ++ bankName ++ "_" ++ r.name ++ "_ADDR " ++
        toString (base + off) ++ "\n") ::
      regLines cfg bankName base rs (off + ceilDiv r.width cfg.busWidth * cfg.slotSize)

/-- Modelled from the spec: the header text for one bank. -/
def bankHeader (cfg : AllocCfg) (e : MapEntry) (b : Bank) : String :=
  "/* " ++ e.name ++ " */\n" ++ String.join (regLines cfg e.name e.base b.regs 0)

/-- Modelled from the spec: the complete header artifact for an AddressMap
and the bank data it was computed from. -/
def headerText (cfg : AllocCfg) (banks : List Bank) (am : List MapEntry) : String :=
  String.join ((List.zip am banks).map (fun p => bankHeader cfg p.1 p.2))

/-- Modelled from the spec: allocation followed by header emission, as the
build driver composes them (`build.py` computes the header and then writes
it). -/
def allocateAndEmit (cfg : AllocCfg) (banks : List Bank) :
    Except String (List MapEntry × String) :=
  match allocate cfg banks with
  | Except.error e => Except.error e
  | Except.ok am => Except.ok (am, headerText cfg banks am)

/-- Modelled from the spec: the file writes the build driver performs.  The
artifact is computed in full before the single write, so an error during
allocation or emission yields no write at all (`build.py` lines 59-60:
`csr_header = cif.get_csr_header(...)` then `write_to_file(..., csr_header)`). -/
def buildWrites (cfg : AllocCfg) (banks : List Bank) : List String :=
  match allocateAndEmit cfg banks with
  | Except.ok pair => [pair.2]
  | Except.error _ => []

/-- Two address ranges `[base, base+size)` are disjoint. -/
def rangesDisjoint (e1 e2 : MapEntry) : Prop :=
  e1.base + e1.size ≤ e2.base ∨ e2.base + e2.size ≤ e1.base

/-- Modelled from the spec: interrupt bit-index assignment, not under the
sources (`arty.py` only calls `add_interrupt`).  Sources registered in
order receive consecutive bit indices from a running counter. -/
def assignInterrupts : List String → Nat → List (String × Nat)
  | [], _ => []
  | n :: ns, i => (n, i) :: assignInterrupts ns (i + 1)

/-- Sub-word field of a register value, as the header emitter describes it:
the value shifted right by the field's shift `i * busWidth` and masked with
`2 ^ busWidth - 1`. -/
def subFieldVal (bw v i : Nat) : Nat := (v >>> (i * bw)) &&& (2 ^ bw - 1)

/-- Recombination of the first `k` sub-word fields: each field is shifted
left by its emitted shift and the results are accumulated. -/
def gatherFields (bw : Nat) (f : Nat → Nat) : Nat → Nat
  | 0 => 0
  | k + 1 => gatherFields bw f k + (f k <<< (k * bw))

-- GPIO cores, embedded from litex/soc/cores/gpio.py ------------------------

/-- From `GPIOIn.__init__` and `AutoCSR`: a `GPIOIn` over a signal of
length `n` has exactly one read-only status CSR of width `n`. -/
def gpioInGetCSRs (n : Nat) : List Register :=
  [{ name := "in", width := n, kind := CSRKind.status }]

/-- From `GPIOOut.__init__` and `AutoCSR`: a `GPIOOut` over a signal of
length `n` has exactly one read-write storage CSR of width `n`. -/
def gpioOutGetCSRs (n : Nat) : List Register :=
  [{ name := "out", width := n, kind := CSRKind.storage }]

/-- From `GPIOOut.__init__`: the combinational assignments
`signal[i].eq(self._out.storage[i]) for i in range(sig_len)`, as pairs
(signal bit index, storage bit index). -/
def gpioOutComb (n : Nat) : List (Nat × Nat) :=
  (List.range n).map (fun i => (i, i))

/-- Value carried by a signal whose bits are combinationally driven from
bits of a storage value according to an assignment list. -/
def combDrivenValue (storage : Nat) (comb : List (Nat × Nat)) : Nat :=
  (comb.map (fun p => if storage.testBit p.2 then 2 ^ p.1 else 0)).sum

/-- The value driven onto the `GPIOOut` output signal of length `n` when
the storage register holds `storage`. -/
def gpioOutDriven (n storage : Nat) : Nat :=
  combDrivenValue storage (gpioOutComb n)

/-- From `GPIOInOut.get_csrs`: the input submodule's CSR list concatenated
with the output submodule's CSR list. -/
def gpioInOutGetCSRs (nin nout : Nat) : List Register :=
  gpioInGetCSRs nin ++ gpioOutGetCSRs nout

-- Arty target main, embedded from litex/boards/targets/arty.py -------------

/-- Command-line options of the Arty target relevant to the assertion. -/
structure SoCArgs where
  withEthernet : Bool
  withEtherbone : Bool
deriving DecidableEq, Repr

/-- The SoC constructed by `main`, recording the flags passed to
`SoundSoC`. -/
structure SoundSoCModel where
  withEthernet : Bool
  withEtherbone : Bool
deriving DecidableEq, Repr

/-- From `main` in `arty.py`: `assert not (args.with_ethernet and
args.with_etherbone)` runs before `SoundSoC(...)` is constructed; when the
assertion passes, the SoC is built with the given flags. -/
def artyMain (a : SoCArgs) : Except String SoundSoCModel :=
  if a.withEthernet && a.withEtherbone then
    Except.error "AssertionError"
  else
    Except.ok { withEthernet := a.withEthernet, withEtherbone := a.withEtherbone }

-- Concrete inputs used by examples and witnesses ---------------------------

/-- The spec's example configuration: bus width 32 bits, slot size 4 bytes,
alignment 4 bytes. -/
def exCfg : AllocCfg := { busWidth := 32, slotSize := 4, align := 4 }

/-- The spec's example banks: `leds` with one register of width 4 and
`timer` with three registers of width 32. -/
def exBanks : List Bank :=
  [ { name := "leds",
      regs := [{ name := "ctrl", width := 4, kind := CSRKind.storage }] },
    { name := "timer",
      regs := [{ name := "load", width := 32, kind := CSRKind.storage },
               { name := "reload", width := 32, kind := CSRKind.storage },
               { name := "value", width := 32, kind := CSRKind.status }] } ]

/-- The AddressMap the allocator produces on the example banks. -/
def exEntries : List MapEntry :=
  [ { name := "leds", base := 0, size := 4 },
    { name := "timer", base := 4, size := 12 } ]

/-- A bank list containing a bank with an empty register list. -/
def badBanks : List Bank :=
  [ { name := "leds",
      regs := [{ name := "ctrl", width := 4, kind := CSRKind.storage }] },
    { name := "broken", regs := [] } ]

-- Helper lemmas ------------------------------------------------------------

/-- Every entry produced by the allocation loop has base at least the
starting cursor. -/
theorem allocBanks_cursor_le (cfg : AllocCfg) :
    ∀ (bs : List Bank) (cursor : Nat) (e : MapEntry),
      e ∈ allocBanks cfg bs cursor → cursor ≤ e.base := by
  intro bs
  induction bs with
  | nil => intro cursor e h; simp [allocBanks] at h
  | cons b bs ih =>
    intro cursor e h
    simp only [allocBanks, List.mem_cons] at h
    rcases h with h | h
    · subst h; exact Nat.le_refl _
    · exact Nat.le_trans (Nat.le_add_right _ _) (ih _ e h)

/-- Entries produced by the allocation loop are consecutive: each earlier
entry ends no later than any later entry's base. -/
theorem allocBanks_chain (cfg : AllocCfg) :
    ∀ (bs : List Bank) (cursor : Nat),
      List.Pairwise (fun e1 e2 => e1.base + e1.size ≤ e2.base)
        (allocBanks cfg bs cursor) := by
  intro bs
  induction bs with
  | nil => intro cursor; simp [allocBanks]
  | cons b bs ih =>
    intro cursor
    simp only [allocBanks]
    refine List.Pairwise.cons ?_ (ih _)
    intro e he
    exact allocBanks_cursor_le cfg bs _ e he

/-- Every entry's size produced by the allocation loop is a multiple of the
alignment. -/
theorem allocBanks_size_mod (cfg : AllocCfg) :
    ∀ (bs : List Bank) (cursor : Nat) (e : MapEntry),
      e ∈ allocBanks cfg bs cursor → e.size % cfg.align = 0 := by
  intro bs
  induction bs with
  | nil => intro cursor e h; simp [allocBanks] at h
  | cons b bs ih =>
    intro cursor e h
    simp only [allocBanks, List.mem_cons] at h
    rcases h with h | h
    · subst h; exact Nat.mul_mod_left _ _
    · exact ih _ e h

/-- A successful allocation is the allocation loop run from cursor 0. -/
theorem allocate_ok (cfg : AllocCfg) (banks : List Bank) (entries : List MapEntry)
    (h : allocate cfg banks = Except.ok entries) :
    entries = allocBanks cfg banks 0 := by
  unfold allocate at h
  cases hf : banks.find? (fun b => b.regs.isEmpty) with
  | some b => rw [hf] at h; exact absurd h (by simp)
  | none =>
    rw [hf] at h
    cases hd : findDup banks with
    | some n => rw [hd] at h; exact absurd h (by simp)
    | none =>
      rw [hd] at h
      exact (Except.ok.inj h).symm

/-- Recombining `k` sub-word fields of `v` recovers `v` modulo
`2 ^ (k * busWidth)`. -/
theorem gatherFields_subFieldVal (bw v : Nat) :
    ∀ k : Nat, gatherFields bw (subFieldVal bw v) k = v % 2 ^ (k * bw) := by
  intro k
  induction k with
  | zero => simp [gatherFields, Nat.mod_one]
  | succ k ih =>
    have hsub : subFieldVal bw v k = v / 2 ^ (k * bw) % 2 ^ bw := by
      unfold subFieldVal
      rw [Nat.and_pow_two_sub_one_eq_mod, Nat.shiftRight_eq_div_pow]
    have hmul : v % 2 ^ ((k + 1) * bw) =
        v % 2 ^ (k * bw) + 2 ^ (k * bw) * (v / 2 ^ (k * bw) % 2 ^ bw) := by
      have : (2 : Nat) ^ ((k + 1) * bw) = 2 ^ (k * bw) * 2 ^ bw := by
        rw [← pow_add]; ring_nf
      rw [this, Nat.mod_mul]
    simp only [gatherFields, ih, hsub, Nat.shiftLeft_eq, hmul]
    ring

/-- The driven GPIO output value for a width-`n` signal equals the storage
value modulo `2 ^ n`. -/
theorem gpioOutDriven_eq_mod (s : Nat) :
    ∀ n : Nat, gpioOutDriven n s = s % 2 ^ n := by
  intro n
  induction n with
  | zero => simp [gpioOutDriven, combDrivenValue, gpioOutComb, Nat.mod_one]
  | succ n ih =>
    have hsplit : gpioOutDriven (n + 1) s =
        gpioOutDriven n s + (if s.testBit n then 2 ^ n else 0) := by
      simp [gpioOutDriven, combDrivenValue, gpioOutComb, List.range_succ]
    have hbit : (if s.testBit n then 2 ^ n else 0) = 2 ^ n * (s / 2 ^ n % 2) := by
      rw [Nat.testBit_to_div_mod]
      rcases Nat.mod_two_eq_zero_or_one (s / 2 ^ n) with h | h <;> simp [h]
    have hmul : s % 2 ^ (n + 1) = s % 2 ^ n + 2 ^ n * (s / 2 ^ n % 2) := by
      have : (2 : Nat) ^ (n + 1) = 2 ^ n * 2 := by rw [pow_succ]
      rw [this, Nat.mod_mul]
    rw [hsplit, ih, hbit, hmul]

/-- A bank list containing an empty bank makes `find?` succeed on the
emptiness predicate. -/
theorem find_empty_bank (banks : List Bank) (b : Bank) (hb : b ∈ banks)
    (hreg : b.regs = []) :
    ∃ b0, banks.find? (fun c => c.regs.isEmpty) = some b0 ∧
      b0 ∈ banks ∧ b0.regs = [] := by
  have hsome : (banks.find? (fun c => c.regs.isEmpty)).isSome := by
    rw [List.find?_isSome]
    exact ⟨b, hb, by simp [hreg]⟩
  obtain ⟨b0, hb0⟩ := Option.isSome_iff_exists.mp hsome
  refine ⟨b0, hb0, List.mem_of_find?_eq_some hb0, ?_⟩
  have := List.find?_some hb0
  simpa [List.isEmpty_iff] using this

-- Claim theorems -----------------------------------------------------------

/-- C1: for every valid Bank set accepted by the allocator, the produced
AddressMap assigns every two banks disjoint address ranges, and every
bank's range size is a multiple of the bus alignment. -/
theorem alloc_disjoint_aligned (cfg : AllocCfg) (banks : List Bank)
    (entries : List MapEntry) (h : allocate cfg banks = Except.ok entries) :
    List.Pairwise rangesDisjoint entries ∧
      ∀ e ∈ entries, e.size % cfg.align = 0 := by
  have he := allocate_ok cfg banks entries h
  subst he
  constructor
  · exact (allocBanks_chain cfg banks 0).imp (fun hab => Or.inl hab)
  · intro e he
    exact allocBanks_size_mod cfg banks 0 e he

/-- Witness for C1 on the spec's example banks. -/
theorem alloc_disjoint_aligned_witness :
    List.Pairwise rangesDisjoint (allocBanks exCfg exBanks 0) ∧
      ∀ e ∈ allocBanks exCfg exBanks 0, e.size % exCfg.align = 0 :=
  alloc_disjoint_aligned exCfg exBanks (allocBanks exCfg exBanks 0) rfl

/-- C2: allocation plus header emission is deterministic — two runs on
identical input produce an identical AddressMap and a byte-identical
header artifact. -/
theorem alloc_emit_deterministic (cfg : AllocCfg) (b1 b2 : List Bank)
    (h : b1 = b2) : allocateAndEmit cfg b1 = allocateAndEmit cfg b2 := by
  rw [h]

/-- Witness for C2 on the spec's example banks. -/
theorem alloc_emit_deterministic_witness :
    allocateAndEmit exCfg exBanks = allocateAndEmit exCfg exBanks :=
  alloc_emit_deterministic exCfg exBanks exBanks rfl

/-- C3: the bit indices assigned to N interrupt sources registered in order
are exactly 0, 1, ..., N-1 (dense, zero-based, no gaps, no reuse), paired
with the source names in registration order. -/
theorem interrupt_indices_dense (names : List String) :
    (assignInterrupts names 0).map Prod.snd = List.range names.length ∧
      (assignInterrupts names 0).map Prod.fst = names := by
  have hsnd : ∀ (ns : List String) (i : Nat),
      (assignInterrupts ns i).map Prod.snd = List.range' i ns.length := by
    intro ns
    induction ns with
    | nil => intro i; simp [assignInterrupts]
    | cons n ns ih => intro i; simp [assignInterrupts, List.range', ih]
  have hfst : ∀ (ns : List String) (i : Nat),
      (assignInterrupts ns i).map Prod.fst = ns := by
    intro ns
    induction ns with
    | nil => intro i; simp [assignInterrupts]
    | cons n ns ih => intro i; simp [assignInterrupts, ih]
  exact ⟨by rw [hsnd, List.range_eq_range'], hfst names 0⟩

/-- C4: the allocator iterates banks in registration order, sizes each bank
as `ceil(total_bits / bus_width) * slot_size` rounded up to the alignment,
and advances a running cursor; on the spec's example (bus width 32, slot
size 4) it assigns `leds` address 0x0 size 4 and `timer` address 0x4
size 12. -/
theorem alloc_cursor_example :
    (∀ (cfg : AllocCfg) (b : Bank),
        bankSize cfg b =
          ceilDiv (ceilDiv b.totalBits cfg.busWidth * cfg.slotSize) cfg.align *
            cfg.align) ∧
    (∀ (cfg : AllocCfg) (b : Bank) (bs : List Bank) (cursor : Nat),
        allocBanks cfg (b :: bs) cursor =
          { name := b.name, base := cursor, size := bankSize cfg b } ::
            allocBanks cfg bs (cursor + bankSize cfg b)) ∧
    allocate exCfg exBanks = Except.ok exEntries := by
  refine ⟨fun cfg b => rfl, fun cfg b bs cursor => rfl, ?_⟩
  rfl

/-- C5: a bank with zero registers is rejected with a configuration error
naming the offending bank, and the build writes no output artifact. -/
theorem empty_bank_rejected (cfg : AllocCfg) (banks : List Bank)
    (h : ∃ b ∈ banks, b.regs = []) :
    ∃ name, allocate cfg banks = Except.error (emptyBankError name) ∧
      (∃ b ∈ banks, b.name = name ∧ b.regs = []) ∧
      buildWrites cfg banks = [] := by
  obtain ⟨b, hb, hreg⟩ := h
  obtain ⟨b0, hfind, hmem, hempty⟩ := find_empty_bank banks b hb hreg
  refine ⟨b0.name, ?_, ⟨b0, hmem, rfl, hempty⟩, ?_⟩
  · unfold allocate
    rw [hfind]
  · unfold buildWrites allocateAndEmit allocate
    rw [hfind]

/-- Witness for C5 on a concrete bank list containing an empty bank. -/
theorem empty_bank_rejected_witness :
    ∃ name, allocate exCfg badBanks = Except.error (emptyBankError name) ∧
      (∃ b ∈ badBanks, b.name = name ∧ b.regs = []) ∧
      buildWrites exCfg badBanks = [] :=
  empty_bank_rejected exCfg badBanks
    ⟨{ name := "broken", regs := [] }, by simp [badBanks], rfl⟩

/-- C6: for a register value fitting in `w` bits, recombining the per-word
sub-fields produced by the emitted shifts and masks (fields `i * busWidth`
wide masked by `2 ^ busWidth - 1`) over `ceil(w / busWidth)` words
reconstructs the original value. -/
theorem subfield_roundtrip (bw w v : Nat) (hbw : 0 < bw) (hv : v < 2 ^ w) :
    gatherFields bw (subFieldVal bw v) (ceilDiv w bw) = v := by
  rw [gatherFields_subFieldVal]
  have hle : w ≤ ceilDiv w bw * bw := by
    unfold ceilDiv
    rcases Nat.eq_zero_or_pos w with hw | hw
    · simp [hw]
    · have hdiv := Nat.div_add_mod (w + bw - 1) bw
      have hmod : (w + bw - 1) % bw < bw := Nat.mod_lt _ hbw
      rw [Nat.mul_comm]
      omega
  exact Nat.mod_eq_of_lt (Nat.lt_of_lt_of_le hv (Nat.pow_le_pow_right (by omega) hle))

/-- Witness for C6 at bus width 32, register width 40, value 2^39 + 5. -/
theorem subfield_roundtrip_witness :
    gatherFields 32 (subFieldVal 32 (2 ^ 39 + 5)) (ceilDiv 40 32) = 2 ^ 39 + 5 :=
  subfield_roundtrip 32 40 (2 ^ 39 + 5) (by decide) (by norm_num)

/-- C7: the build driver either writes exactly one complete header artifact
(the full text emitted from the successfully allocated AddressMap) or
writes nothing at all; a partial file is never among its writes. -/
theorem no_partial_output (cfg : AllocCfg) (banks : List Bank) :
    buildWrites cfg banks = [] ∨
      ∃ am, allocate cfg banks = Except.ok am ∧
        buildWrites cfg banks = [headerText cfg banks am] := by
  cases halloc : allocate cfg banks with
  | error e =>
    left
    unfold buildWrites allocateAndEmit
    rw [halloc]
  | ok am =>
    right
    refine ⟨am, rfl, ?_⟩
    unfold buildWrites allocateAndEmit
    rw [halloc]

/-- C8: `GPIOOut` over a signal of length `n` allocates exactly one
read-write storage CSR of width `n`, wires signal bit `i` to storage bit
`i` for every `i < n`, and the driven output value equals the storage
value whenever it fits in `n` bits. -/
theorem gpio_out_correct (n s : Nat) (hs : s < 2 ^ n) :
    gpioOutGetCSRs n = [{ name := "out", width := n, kind := CSRKind.storage }] ∧
      (∀ i, i < n → (i, i) ∈ gpioOutComb n) ∧
      gpioOutDriven n s = s := by
  refine ⟨rfl, ?_, ?_⟩
  · intro i hi
    simp [gpioOutComb]
    exact hi
  · rw [gpioOutDriven_eq_mod, Nat.mod_eq_of_lt hs]

/-- Witness for C8 at signal length 3, storage value 5. -/
theorem gpio_out_correct_witness :
    gpioOutGetCSRs 3 = [{ name := "out", width := 3, kind := CSRKind.storage }] ∧
      (∀ i, i < 3 → (i, i) ∈ gpioOutComb 3) ∧
      gpioOutDriven 3 5 = 5 :=
  gpio_out_correct 3 5 (by decide)

/-- C9: `GPIOInOut.get_csrs` returns exactly the input submodule's CSR list
followed by the output submodule's CSR list, so the input status register
precedes the output storage register in CSR registration order. -/
theorem gpio_inout_order (nin nout : Nat) :
    gpioInOutGetCSRs nin nout = gpioInGetCSRs nin ++ gpioOutGetCSRs nout ∧
      (gpioInOutGetCSRs nin nout).get? 0 =
        some { name := "in", width := nin, kind := CSRKind.status } ∧
      (gpioInOutGetCSRs nin nout).get? 1 =
        some { name := "out", width := nout, kind := CSRKind.storage } := by
  exact ⟨rfl, rfl, rfl⟩

/-- C10: the Arty `main` fails with an assertion error before constructing
any SoC when both `--with-ethernet` and `--with-etherbone` are requested;
otherwise the assertion passes and the SoC is constructed with the
requested flags. -/
theorem arty_main_assert (a : SoCArgs) :
    (a.withEthernet = true → a.withEtherbone = true →
        artyMain a = Except.error "AssertionError") ∧
      ((a.withEthernet && a.withEtherbone) = false →
        artyMain a = Except.ok
          { withEthernet := a.withEthernet, withEtherbone := a.withEtherbone }) := by
  constructor
  · intro h1 h2
    simp [artyMain, h1, h2]
  · intro h
    simp only [artyMain, h]
    rfl

/-- Witness for C10: both flags set fails the assertion; a single flag
constructs the SoC. -/
theorem arty_main_assert_witness :
    artyMain { withEthernet := true, withEtherbone := true } =
        Except.error "AssertionError" ∧
      artyMain { withEthernet := true, withEtherbone := false } =
        Except.ok { withEthernet := true, withEtherbone := false } :=
  ⟨(arty_main_assert { withEthernet := true, withEtherbone := true }).1 rfl rfl,
    (arty_main_assert { withEthernet := true, withEtherbone := false }).2 rfl⟩
